import Mathlib

/-!
# Verification of the Kuhlman-Lab AlphaFold feature pipeline (`run/features.py`)

A shallow embedding of the feature-assembly pipeline: MSA padding/pairing
(`pad_sequences`, `pair_msa`), chain-break residue indexing (`chain_break`),
the raw-input gathering (`getRawInputs`), the MMseqs2 client control flow and
tag demultiplexing (`runMMseqs2`), the custom-MSA directory scan
(`getCustomMSADict`), and the per-chain feature assembly (`getChainFeatures`).

Python strings are Lean `String`s; `str.split('\n')` is the structurally
recursive `splitNl`; numpy integer arrays are `List Int`; Python dicts are
insertion-ordered association lists.
-/

namespace AFFeatures

/-- Splitting a character list at a separator, keeping empty pieces: the
semantics of Python's `str.split(sep)` for a one-character separator. -/
def splitChars (sep : Char) : List Char → List Char → List (List Char)
  | [], acc => [acc.reverse]
  | c :: cs, acc =>
      if c = sep then acc.reverse :: splitChars sep cs []
      else splitChars sep cs (c :: acc)

/-- Python's `s.split('\n')`. -/
def splitNl (s : String) : List String :=
  (splitChars '\n' s.data []).map String.mk

/-- Python's `s.split('.')`. -/
def splitDot (s : String) : List String :=
  (splitChars '.' s.data []).map String.mk

/-- Python's `s.startswith('>')`. -/
def startsGt (s : String) : Bool :=
  match s.data with
  | [] => false
  | c :: _ => c = '>'

/-- `'-' * n`: a gap string of length `n`. -/
def gapStr (n : Nat) : String := String.mk (List.replicate n '-')

theorem gapStr_length (n : Nat) : (gapStr n).length = n := by
  simp [gapStr, String.length]

theorem gapStr_data (n : Nat) : (gapStr n).data = List.replicate n '-' := rfl

/-! ## `pad_sequences` (features.py lines 458-481) -/

/-- The `_blank_seq` list comprehension:
`[('-' * len(seq)) for n, seq in enumerate(query_sequences) for _ in range(query_cardinality[n])]`. -/
def blankSeq (query_sequences : List String) (query_cardinality : List Nat) :
    List String :=
  ((query_sequences.zip query_cardinality).map
    (fun p => List.replicate p.2 (gapStr p.1.length))).flatten

/-- One padded alignment row:
`''.join(_blank_seq[:pos] + [a3m_line] + _blank_seq[pos+1:])`. -/
def padRow (blank : List String) (pos : Nat) (line : String) : String :=
  String.join (blank.take pos ++ [line] ++ blank.drop (pos + 1))

/-- The treatment of a single line of a chain's a3m block: empty lines are
skipped, header lines (`>`) are kept verbatim, other lines are padded with the
blank strings of every other chain instance. -/
def padLine (blank : List String) (pos : Nat) (line : String) : Option String :=
  if line.length = 0 then none
  else if startsGt line then some line
  else some (padRow blank pos line)

/-- The inner `for j in range(0, query_cardinality[n])` loop: one copy of the
chain's a3m block per cardinality unit, each at the next column position. -/
def padCopies (blank : List String) (lines : List String) :
    Nat → Nat → List String
  | 0, _ => []
  | k + 1, pos =>
      lines.filterMap (padLine blank pos) ++ padCopies blank lines k (pos + 1)

/-- The outer `for n, seq in enumerate(query_sequences)` loop, threading the
`pos` counter. Each chain `n` contributes `query_cardinality[n]` copies of its
block, and `pos` advances by that cardinality. -/
def padGo (blank : List String) : List (String × Nat) → Nat → List String
  | [], _ => []
  | (a3m, card) :: rest, pos =>
      padCopies blank (splitNl a3m) card pos ++
        padGo blank rest (pos + card)

/-- The list of combined alignment rows produced by `pad_sequences` before the
final `'\n'.join(...)`. -/
def padSequencesLines (a3m_lines : List String) (query_sequences : List String)
    (query_cardinality : List Nat) : List String :=
  padGo (blankSeq query_sequences query_cardinality)
    (a3m_lines.zip query_cardinality) 0

/-- `pad_sequences`: combine per-chain a3m alignments into one block-diagonal
alignment string. -/
def pad_sequences (a3m_lines : List String) (query_sequences : List String)
    (query_cardinality : List Nat) : String :=
  String.intercalate "\n"
    (padSequencesLines a3m_lines query_sequences query_cardinality)

/-! ## `pair_msa` (features.py lines 440-455) -/

/-- First-occurrence deduplication, as built by the
`for seq in sequences: if seq not in unique_seqs` loop. -/
def uniqueSeqs (sequences : List String) : List String :=
  sequences.foldl (fun acc s => if s ∈ acc then acc else acc ++ [s]) []

/-- `seqs_cardinality`: the loop increments the counter at the index of each
sequence in `unique_seqs`, so entry `i` ends up as the number of occurrences of
`unique_seqs[i]` in `sequences`. -/
def seqsCardinality (sequences : List String) : List Nat :=
  (uniqueSeqs sequences).map (fun u => sequences.count u)

/-- `pair_msa`: look up the raw a3m of each unique sequence and combine via
`pad_sequences`.  The raw-input dictionary access `raw_inputs[seq][0]` is
modelled by the total map `raw` (all query sequences have entries in a run). -/
def pair_msa (sequences : List String) (raw : String → String) : String :=
  pad_sequences ((uniqueSeqs sequences).map raw) (uniqueSeqs sequences)
    (seqsCardinality sequences)

/-! ## `chain_break` (features.py lines 431-437) -/

/-- numpy's in-place suffix shift `idx_res[start:] += amt`, as the resulting
array value: entries from position `start` on are incremented by `amt`. -/
def addFrom (l : List Int) (start : Nat) (amt : Int) : List Int :=
  l.take start ++ (l.drop start).map (· + amt)

/-- The `for L_i in Ls[:-1]` loop of `chain_break`, threading `L_prev`:
each iteration shifts the suffix starting at `L_prev + L_i` by `len` and
advances `L_prev` by `L_i`. -/
def chainBreakGo (len : Int) : List Int → Nat → List Nat → List Int
  | idx, _, [] => idx
  | idx, Lprev, L :: rest =>
      chainBreakGo len (addFrom idx (Lprev + L) len) (Lprev + L) rest

/-- `chain_break(idx_res, Ls, length=200)`: shift the residue indices of every
chain after the first by the break offset, cumulatively. -/
def chain_break (idx_res : List Int) (Ls : List Nat) (len : Int := 200) :
    List Int :=
  chainBreakGo len idx_res 0 Ls.dropLast

/-- The `residue_index` array produced by `make_sequence_features`
(`np.array(range(num_res))`): `[0, 1, ..., num_res - 1]`. -/
def idxRange (num_res : Nat) : List Int :=
  (List.range num_res).map Int.ofNat

/-! ### `chain_break` as a heap transformer

`chain_break` receives a numpy array by reference and performs in-place
slice updates on it (`idx_res[...:] += length`), then returns `idx_res`
itself.  To speak about aliasing we model the numpy heap explicitly: a store
of arrays indexed by references.  Each loop iteration writes the shifted
array back to the same reference; the function returns the reference it was
given. -/

/-- A store of numpy integer arrays, indexed by references. -/
def NpHeap : Type := Nat → List Int

/-- Writing an array value to a reference. -/
def heapWrite (h : NpHeap) (r : Nat) (v : List Int) : NpHeap :=
  fun x => if x = r then v else h x

/-- The `chain_break` loop acting on the heap: each iteration performs the
in-place `idx_res[L_prev+L_i:] += length` on the array at reference `r`. -/
def chainBreakLoopH (len : Int) (r : Nat) : NpHeap → Nat → List Nat → NpHeap
  | h, _, [] => h
  | h, Lprev, L :: rest =>
      chainBreakLoopH len r (heapWrite h r (addFrom (h r) (Lprev + L) len))
        (Lprev + L) rest

/-- `chain_break` as a state transformer: runs the loop over `Ls[:-1]` on the
array at reference `r` and returns (the final heap, the returned reference).
The returned reference is `r` itself: the source returns `idx_res`
unchanged as an object. -/
def chain_break_heap (h : NpHeap) (r : Nat) (Ls : List Nat)
    (len : Int := 200) : NpHeap × Nat :=
  (chainBreakLoopH len r h 0 Ls.dropLast, r)

/-! ## `runMMseqs2` (features.py lines 81-251)

The network is abstracted: HTTP responses become explicit streams of
`(status, id)` records, and the downloaded a3m file becomes a list of text
lines (each line carrying its trailing `'\n'`, as Python file iteration
yields them). -/

/-- A parsed JSON response of the MMseqs2 API: a `status` string and the
ticket `id` carried by a submission response. -/
structure MMResponse where
  status : String
  id : Nat
deriving DecidableEq, Repr

/-- The message of the exception raised on `ERROR` status. -/
def mmseqsErrorMsg : String :=
  "MMseqs2 API is giving errors. Please confirm your input is a valid " ++
  "protein sequence. If error persists, please try again in an hour."

/-- The outcome of the submit/poll loop of `runMMseqs2`. -/
inductive MMOutcome
  | complete (id : Nat)
  | fatal (msg : String)
  | starved
deriving DecidableEq, Repr

/-- The inner polling loop `while out['status'] in ['UNKNOWN', 'RUNNING',
'PENDING']`: starting from the last response `out`, consume status responses
until one is not in the transient set.  Returns `none` when the stream runs
dry while still transient (the real loop would block forever there). -/
def pollLoop : MMResponse → List MMResponse →
    Option (MMResponse × List MMResponse)
  | out, stats =>
      if out.status = "UNKNOWN" ∨ out.status = "RUNNING" ∨
          out.status = "PENDING" then
        match stats with
        | [] => none
        | s :: rest => pollLoop s rest
      else
        some (out, stats)

/-- The `while REDO` loop of `runMMseqs2`, fused with the resubmission loop
`while out['status'] in ['UNKNOWN', 'RATELIMIT']`: each submission consumes
one response from `subs`; a transient submission response causes a
resubmission, otherwise the job is polled via `pollLoop`; a `COMPLETE` poll
result ends the loop, an `ERROR` raises the exception, and any other settled
status leaves `REDO` true so the job is submitted again. -/
def mmseqsRun : List MMResponse → List MMResponse → MMOutcome
  | [], _ => .starved
  | r :: subs, stats =>
      if r.status = "UNKNOWN" ∨ r.status = "RATELIMIT" then
        mmseqsRun subs stats
      else
        match pollLoop r stats with
        | none => .starved
        | some (settled, stats') =>
            if settled.status = "COMPLETE" then .complete r.id
            else if settled.status = "ERROR" then .fatal mmseqsErrorMsg
            else mmseqsRun subs stats'

/-- Lexicographic `≤` on character lists by code point: Python's string
comparison. -/
def strLeChars : List Char → List Char → Bool
  | [], _ => true
  | _ :: _, [] => false
  | a :: as, b :: bs =>
      if a.toNat = b.toNat then strLeChars as bs
      else decide (a.toNat < b.toNat)

/-- Python's `a <= b` on strings. -/
def strLe (a b : String) : Bool := strLeChars a.data b.data

/-- Insertion of a string into a `strLe`-sorted list. -/
def insertSorted (s : String) : List String → List String
  | [] => [s]
  | x :: xs => if strLe s x then s :: x :: xs else x :: insertSorted s xs

/-- `sorted(list(set(sequences)))`: the deduplicated sequence list in
lexicographic order (a set has no duplicates, so any comparison sort yields
the same list). -/
def uniqueSortedSeqs (sequences : List String) : List String :=
  (uniqueSeqs sequences).foldr insertSorted []

/-- `Ms = [N + unique_seqs.index(seq) for seq in sequences]`: the tag of each
input sequence (duplicates get the tag of their unique representative). -/
def mmseqsTags (sequences : List String) (N : Nat) : List Nat :=
  sequences.map (fun s => N + (uniqueSortedSeqs sequences).indexOf s)

/-- Python's `line.rstrip()`: strip trailing whitespace. -/
def rstrip (s : String) : String :=
  String.mk ((s.data.reverse.dropWhile Char.isWhitespace).reverse)

/-- Decimal digit accumulation for `parseNat`. -/
def parseNatAux : List Char → Nat → Option Nat
  | [], acc => some acc
  | c :: cs, acc =>
      if c.isDigit then parseNatAux cs (acc * 10 + (c.toNat - 48)) else none

/-- `int(s)` on a nonnegative decimal string; `none` where Python raises
`ValueError`. -/
def parseNat (s : String) : Option Nat :=
  match s.data with
  | [] => none
  | cs => parseNatAux cs 0

/-- `int(line[1:].rstrip())` for a header line: the numeric tag after `'>'`.
A non-numeric header (which would raise `ValueError` in the source) is
modelled as tag `0`, distinct from all real tags (they start at 101). -/
def headerTag (line : String) : Nat :=
  (parseNat (rstrip (String.mk line.data.tail))).getD 0

/-- State of the a3m-gathering loop (features.py lines 215-230): the
accumulated `{tag: [lines]}` dictionary, the current tag `M`, and the
`update_M` flag. -/
structure GatherState where
  dict : List (Nat × List String)
  M : Option Nat
  update_M : Bool
deriving Repr

/-- Appending a line to the current tag's entry (`a3m_lines[M].append(line)`).
A line arriving before any header (where the source would raise `KeyError`
on `a3m_lines[None]`) is dropped. -/
def gatherAppend (dict : List (Nat × List String)) (M : Option Nat)
    (line : String) : List (Nat × List String) :=
  match M with
  | none => dict
  | some m => dict.map (fun p => if p.1 = m then (m, p.2 ++ [line]) else p)

/-- Processing one line of the downloaded a3m file: strip NUL bytes (resetting
`update_M`), re-synchronize `M` at header lines when `update_M` is set
(inserting a fresh dictionary entry for unseen tags), then append the line to
the current tag's block. -/
def gatherStep (st : GatherState) (line0 : String) : GatherState :=
  if line0.length = 0 then st
  else
    let hasNul := line0.data.contains (Char.ofNat 0)
    let line := if hasNul then
        String.mk (line0.data.filter (fun c => c ≠ Char.ofNat 0))
      else line0
    let update_M := if hasNul then true else st.update_M
    if startsGt line ∧ update_M then
      let m := headerTag line
      let dict := if (st.dict.lookup m).isSome then st.dict
        else st.dict ++ [(m, [])]
      { dict := gatherAppend dict (some m) line, M := some m, update_M := false }
    else
      { st with dict := gatherAppend st.dict st.M line, update_M := update_M }

/-- The a3m-gathering loop over the lines of the downloaded file(s): builds
the `{tag: [lines]}` dictionary. -/
def gatherA3M (fileLines : List String) : List (Nat × List String) :=
  (fileLines.foldl gatherStep ⟨[], none, true⟩).dict

/-- `a3m_lines = [''.join(a3m_lines[n]) for n in Ms]`: the per-input-sequence
alignment blobs, demultiplexed by tag.  A tag absent from the dictionary
(`KeyError` in the source) is modelled as the empty blob. -/
def runMMseqs2_a3m (sequences : List String) (fileLines : List String) :
    List String :=
  (mmseqsTags sequences 101).map
    (fun n => String.join (((gatherA3M fileLines).lookup n).getD []))

/-! ## `getCustomMSADict` (features.py lines 254-290)

The directory is modelled as the list of (filename, file contents) pairs that
the `os.listdir` comprehension yields. -/

/-- The `ValueError` message raised when the directory scan found no custom
alignment. -/
def noCustomMsaMsg : String :=
  "No custom MSAs detected. Double-check the path or no not provide the " ++
  "--custom_msa_path argument."

/-- The `ValueError` message raised on two custom alignments with the same
primary sequence. -/
def duplicateCustomMsaMsg : String :=
  "Multiple custom MSAs found for the sequence the same sequence. " ++
  "There can only be one custom MSA per sequence."

/-- Python's `s.strip()`. -/
def strip (s : String) : String :=
  String.mk
    (((s.data.dropWhile Char.isWhitespace).reverse.dropWhile
        Char.isWhitespace).reverse)

/-- `filename.split('.')[-1]`: the text after the last dot.  Note this never
contains the dot itself: for `"msa1.a3m"` it is `"a3m"`, not `".a3m"`. -/
def fileExtension (filename : String) : String :=
  (splitDot filename).getLastD ""

/-- The sequence-capturing loop of `getCustomMSADict`: skip lines until the
first header, then return the first non-blank line after it.  Returns `none`
when no such line exists (the source would leave `sequence` unbound there). -/
def firstCapturedSeq (capture : Bool) : List String → Option String
  | [] => none
  | l :: rest =>
      let line := strip l
      if startsGt line then firstCapturedSeq true rest
      else if line = "" then firstCapturedSeq capture rest
      else if capture then some line
      else firstCapturedSeq capture rest

/-- The body of `getCustomMSADict` as the source intends it to run (reachable
only if the `for filename in onlyfile` name resolved, see
`getCustomMSADict`): keep files whose `filename.split('.')[-1]` equals
`'.a3m'`, key each by its captured primary sequence, raise on a duplicate
key, and raise when no file qualified.  Files in which no sequence line was
captured are skipped (the source would raise `NameError` or reuse a stale
`sequence` there). -/
def getCustomMSADictLoop (acc : List (String × String)) :
    List (String × String) → Except String (List (String × String))
  | [] =>
      if acc = [] then
        .error noCustomMsaMsg
      else .ok acc
  | (filename, contents) :: rest =>
      if fileExtension filename = ".a3m" then
        match firstCapturedSeq false (splitNl contents) with
        | none => getCustomMSADictLoop acc rest
        | some seq =>
            if (acc.lookup seq).isSome then
              .error duplicateCustomMsaMsg
            else getCustomMSADictLoop (acc ++ [(seq, contents)]) rest
      else getCustomMSADictLoop acc rest

/-- `getCustomMSADict`: line 260 of the source iterates `onlyfile`, a name
that is never defined (`onlyfiles` is), so in Python the call raises
`NameError` before opening any file, for every directory. -/
def getCustomMSADict (_files : List (String × String)) :
    Except String (List (String × String)) :=
  Except.error "NameError: name onlyfile is not defined"

/-! ## `getRawInputs` (features.py lines 36-78) -/

/-- The unique-sequence gathering loop over all queries:
`for query in queries: for seq in seqs: if seq not in unique_sequences`. -/
def uniqueAcrossQueries (queries : List (String × List String)) :
    List String :=
  queries.foldl
    (fun acc q =>
      q.2.foldl (fun acc2 s => if s ∈ acc2 then acc2 else acc2 ++ [s]) acc)
    []

/-- Python dict insertion: replace the value at an existing key in place, or
append a new binding. -/
def dictInsert (d : List (String × String × Option String)) (k : String)
    (v : String × Option String) : List (String × String × Option String) :=
  if (d.lookup k).isSome then
    d.map (fun p => if p.1 = k then (k, v) else p)
  else d ++ [(k, v)]

/-- `a3m.splitlines()[1]`: the second line of an a3m blob, its primary
sequence. -/
def a3mKey (a3m : String) : String := ((splitNl a3m).drop 1).headD ""

/-- The storing loop of `getRawInputs`: each a3m blob is keyed by
`a3m.splitlines()[1]` (its second line, the primary sequence). -/
def storeRawInputs (pairs : List (String × Option String)) :
    List (String × String × Option String) :=
  pairs.foldl (fun d p => dictInsert d (a3mKey p.1) p) []

/-- `getRawInputs`: when `msa_mode` is not `'single_sequence'` (and there is
at least one sequence), call `runMMseqs2` — abstracted as the `network`
oracle — on the unique sequences; otherwise build the one-row self-alignment
`'>1\n{seq}\n'` with template path `None` for each unique sequence.  The
results are stored keyed by each blob's second line. -/
def getRawInputs (queries : List (String × List String)) (msa_mode : String)
    (network : List String → List String × List (Option String)) :
    List (String × String × Option String) :=
  let uniq := uniqueAcrossQueries queries
  let res :=
    if msa_mode ≠ "single_sequence" ∧ uniq ≠ [] then network uniq
    else (uniq.map (fun s => ">1\n" ++ s ++ "\n"), uniq.map (fun _ => none))
  storeRawInputs (res.1.zip res.2)

/-! ## `getChainFeatures` (features.py lines 329-428)

The per-chain branch (`len(sequences) == 1 or use_multimer`) is modelled at
the level of which feature groups are written into a chain's `feature_dict`,
and from which alignment text each group is computed.  The library feature
builders (`pipeline.make_sequence_features`, `pipeline.make_msa_features`,
`notebook_utils.empty_placeholder_template_features`) live outside this
repository; their array shapes are modelled from the spec further below. -/

/-- One `feature_dict.update(...)` performed for a chain, tagged with the
data it is computed from. -/
inductive FeatureBlock
  | sequenceFeats (sequence : String) (num_res : Nat)
  | msaFeats (a3m : String)
  | allSeqFeats (sequence : String)
  | customTemplateFeats
  | templateFeats (sequence : String) (template_dir : String)
  | templatePlaceholder (num_res : Nat)
deriving DecidableEq, Repr

/-- The sequence of `feature_dict.update(...)` calls made for one chain in
the per-chain branch of `getChainFeatures` (features.py lines 344-390):
sequence features; then — only when the sequence is NOT in the custom-MSA
dictionary — MSA features from the computed alignment (when the sequence IS
in the dictionary, `getMSA` is called on the custom a3m but the
`feature_dict.update(pipeline.make_msa_features(...))` call sits inside the
`else` branch, so no MSA feature group is written at all); then the
`_all_seq` group when the query has more than one distinct sequence; then
template features (custom directory, real template search, or the zero-hit
placeholder shaped for this chain's length). -/
def chainFeatureBlocks (sequences : List String)
    (custom_msa_dict : List (String × String))
    (raw : String → String × Option String) (use_templates : Bool)
    (custom_template_path : Bool) (sequence : String) : List FeatureBlock :=
  [.sequenceFeats sequence sequence.length]
  ++ (match custom_msa_dict.lookup sequence with
      | some _ => []
      | none => [.msaFeats (raw sequence).1])
  ++ (if 1 < (uniqueSeqs sequences).length then [.allSeqFeats sequence]
      else [])
  ++ (if custom_template_path then [.customTemplateFeats]
      else if use_templates then
        match (raw sequence).2 with
        | none => [.templatePlaceholder sequence.length]
        | some dir => [.templateFeats sequence dir]
      else [.templatePlaceholder sequence.length])

/-- Whether a feature block is an MSA feature group
(`pipeline.make_msa_features` output). -/
def isMsaFeats : FeatureBlock → Bool
  | .msaFeats _ => true
  | _ => false

/-! ### Library feature shapes, and the pseudo-multimer branch -/

/-- Modelled from the spec: the array shapes returned by
`pipeline.make_sequence_features(sequence, description, num_res)` (alphafold
library, not part of this repository).  Per-residue arrays have leading
dimension `num_res`. -/
def make_sequence_features_shapes (num_res : Nat) : List (String × List Nat) :=
  [("aatype", [num_res, 21]),
   ("between_segment_residues", [num_res]),
   ("domain_name", [1]),
   ("residue_index", [num_res]),
   ("seq_length", [num_res]),
   ("sequence", [1])]

/-- Modelled from the spec: the array shapes returned by
`pipeline.make_msa_features(msas)` (alphafold library, not part of this
repository) for an alignment of `depth` rows over `num_res` columns.
Per-row arrays have leading dimension `depth`. -/
def make_msa_features_shapes (depth num_res : Nat) : List (String × List Nat) :=
  [("deletion_matrix_int", [depth, num_res]),
   ("msa", [depth, num_res]),
   ("num_alignments", [num_res]),
   ("msa_species_identifiers", [depth])]

/-- Modelled from the spec: the array shapes returned by
`notebook_utils.empty_placeholder_template_features(num_templates, num_res)`
(alphafold library, not part of this repository): the same feature names as
a real template result, leading dimension `num_templates`, per-residue
dimension `num_res`. -/
def empty_placeholder_template_features_shapes (num_templates num_res : Nat) :
    List (String × List Nat) :=
  [("template_aatype", [num_templates, num_res, 22]),
   ("template_all_atom_masks", [num_templates, num_res, 37]),
   ("template_all_atom_positions", [num_templates, num_res, 37, 3]),
   ("template_domain_names", [num_templates]),
   ("template_sequence", [num_templates]),
   ("template_sum_probs", [num_templates, 1])]

/-- Python dict `update` on a shape dictionary: existing keys are overwritten
in place, new keys appended. -/
def updateShapes (d : List (String × List Nat))
    (kvs : List (String × List Nat)) : List (String × List Nat) :=
  kvs.foldl
    (fun acc kv =>
      if (acc.lookup kv.1).isSome then
        acc.map (fun p => if p.1 = kv.1 then kv else p)
      else acc ++ [kv])
    d

/-- `asym_id` of the pseudo-multimer branch:
`np.array([int(n) for n, l in enumerate(Ls) for _ in range(0, l)])`. -/
def asymId (Ls : List Nat) : List Int :=
  (Ls.enum.map (fun p => List.replicate p.2 (Int.ofNat p.1))).flatten

/-- The shape dictionary assembled by the pseudo-multimer branch of
`getChainFeatures` (features.py lines 394-426, taken when
`len(sequences) > 1` and `use_multimer` is false), for a paired alignment of
`depth` rows.  `total_sequence` is the concatenation of all chains; the
`for sequence in sequences` loop at line 401 leaves `sequence` bound to the
LAST chain, and line 419 passes `len(sequence)` — the last chain's length —
as the placeholder's `num_res`.  `residue_index` is then overwritten by
`chain_break` (same shape) and `asym_id` added. -/
def getChainFeaturesPseudoShapes (sequences : List String) (depth : Nat) :
    List (String × List Nat) :=
  let total_sequence := String.join sequences
  let sequence := sequences.getLastD ""
  let Ls := sequences.map String.length
  updateShapes
    (updateShapes
      (updateShapes
        (updateShapes [] (make_sequence_features_shapes total_sequence.length))
        (make_msa_features_shapes depth total_sequence.length))
      (empty_placeholder_template_features_shapes 0 sequence.length))
    [("residue_index",
        [(chain_break (idxRange total_sequence.length) Ls).length]),
     ("asym_id", [(asymId Ls).length])]

/-- The `residue_index` array of the pseudo-multimer branch:
`make_sequence_features` sets it to `range(num_res)` over the concatenated
sequence, and line 421 replaces it by `chain_break(residue_index, Ls)`. -/
def pseudoResidueIndex (Ls : List Nat) : List Int :=
  chain_break (idxRange (Ls.sum)) Ls

/-! ### Spec-side reference definitions -/

/-- Modelled from the spec: `parsers.parse_a3m` (alphafold library, not part
of this repository) returns the alignment rows in order — the non-header,
non-blank lines of the a3m text (lowercase/deletion handling is vacuous for
uppercase-only rows). -/
def parse_a3m_rows (a3m : String) : List String :=
  (splitNl a3m).filter (fun l => !(l == "") && !(startsGt l))

/-- The combined alignment as the spec describes the ordering: chain
instances contribute their column block in exactly the order the sequences
appear in the query, each occurrence (including repeats) in its query
position.  Stated for comparison with `pair_msa`. -/
def pair_msa_queryOrder (sequences : List String) (raw : String → String) :
    String :=
  pad_sequences (sequences.map raw) sequences
    (List.replicate sequences.length 1)

/-! ## Helper lemmas -/

theorem join_data_aux (L : List String) (acc : String) :
    (L.foldl (fun r s => r ++ s) acc).data =
      acc.data ++ (L.map String.data).flatten := by
  induction L generalizing acc with
  | nil => simp
  | cons a l ih => simp [List.foldl_cons, ih, String.data_append]

theorem join_data (L : List String) :
    (String.join L).data = (L.map String.data).flatten := by
  simp [String.join, join_data_aux]

theorem join_length (L : List String) :
    (String.join L).length = (L.map String.length).sum := by
  have h := congrArg List.length (join_data L)
  rw [List.length_flatten, List.map_map] at h
  exact h

theorem addFrom_length (l : List Int) (k : Nat) (a : Int) :
    (addFrom l k a).length = l.length := by
  simp [addFrom]
  omega

theorem addFrom_getD (l : List Int) (k : Nat) (a : Int) (i : Nat)
    (hi : i < l.length) :
    (addFrom l k a).getD i 0 =
      if i < k then l.getD i 0 else l.getD i 0 + a := by
  unfold addFrom
  by_cases hik : i < k
  · have hlen : i < (l.take k).length := by
      simp [List.length_take]; omega
    rw [List.getD_eq_getElem?_getD, List.getD_eq_getElem?_getD]
    rw [List.getElem?_append_left hlen, List.getElem?_take]
    simp [hik]
  · have htk : (l.take k).length = k := by
      simp [List.length_take]; omega
    have hk : k ≤ i := by omega
    rw [List.getD_eq_getElem?_getD, List.getD_eq_getElem?_getD]
    rw [List.getElem?_append_right (by omega : (l.take k).length ≤ i)]
    rw [List.getElem?_map, htk, List.getElem?_drop]
    have : k + (i - k) = i := by omega
    rw [this, List.getElem?_eq_getElem hi]
    simp [hik]

theorem idxRange_length (N : Nat) : (idxRange N).length = N := by
  simp [idxRange]

theorem idxRange_getD (N i : Nat) (h : i < N) :
    (idxRange N).getD i 0 = (i : Int) := by
  rw [List.getD_eq_getElem?_getD]
  simp [idxRange, List.getElem?_map, List.getElem?_range h]

theorem chain_break_three (idx : List Int) (L1 L2 L3 : Nat) (len : Int) :
    chain_break idx [L1, L2, L3] len =
      addFrom (addFrom idx (0 + L1) len) (0 + L1 + L2) len := by
  simp [chain_break, chainBreakGo, List.dropLast]

theorem chain_break_three_getD (L1 L2 L3 : Nat) (len : Int) (i : Nat)
    (hi : i < L1 + L2 + L3) :
    (chain_break (idxRange (L1 + L2 + L3)) [L1, L2, L3] len).getD i 0 =
      (i : Int) +
        (if i < L1 then 0 else if i < L1 + L2 then len else 2 * len) := by
  rw [chain_break_three]
  rw [addFrom_getD _ _ _ _ (by rw [addFrom_length, idxRange_length]; omega)]
  rw [addFrom_getD _ _ _ _ (by rw [idxRange_length]; omega)]
  rw [idxRange_getD _ _ hi]
  split_ifs <;> omega

theorem chainBreakLoopH_read (len : Int) (r : Nat) (Ls : List Nat) :
    ∀ (h : NpHeap) (Lprev : Nat),
      chainBreakLoopH len r h Lprev Ls r = chainBreakGo len (h r) Lprev Ls ∧
      ∀ s, s ≠ r → chainBreakLoopH len r h Lprev Ls s = h s := by
  induction Ls with
  | nil => exact fun h Lprev => ⟨rfl, fun s _ => rfl⟩
  | cons L rest ih =>
      intro h Lprev
      constructor
      · show chainBreakLoopH len r
          (heapWrite h r (addFrom (h r) (Lprev + L) len)) (Lprev + L) rest r = _
        rw [(ih _ _).1]
        simp [heapWrite, chainBreakGo]
      · intro s hs
        show chainBreakLoopH len r
          (heapWrite h r (addFrom (h r) (Lprev + L) len)) (Lprev + L) rest s = _
        rw [(ih _ _).2 s hs]
        simp [heapWrite, hs]

theorem splitChars_no_sep (sep : Char) (cs : List Char) (rest : List Char)
    (h : sep ∉ cs) :
    ∀ acc, splitChars sep (cs ++ sep :: rest) acc =
      (acc.reverse ++ cs) :: splitChars sep rest [] := by
  induction cs with
  | nil => intro acc; simp [splitChars]
  | cons c cs ih =>
      intro acc
      have hc : ¬c = sep := fun hcs => h (hcs ▸ List.mem_cons_self c cs)
      have hcs : sep ∉ cs := fun hin => h (List.mem_cons_of_mem c hin)
      calc splitChars sep ((c :: cs) ++ sep :: rest) acc
          = splitChars sep (cs ++ sep :: rest) (c :: acc) := by
            simp only [List.cons_append, splitChars, if_neg hc]
            rfl
        _ = ((c :: acc).reverse ++ cs) :: splitChars sep rest [] := ih hcs _
        _ = (acc.reverse ++ c :: cs) :: splitChars sep rest [] := by simp

theorem splitChars_no_sep_end (sep : Char) (cs : List Char) (h : sep ∉ cs) :
    ∀ acc, splitChars sep cs acc = [acc.reverse ++ cs] := by
  induction cs with
  | nil => intro acc; simp [splitChars]
  | cons c cs ih =>
      intro acc
      have hc : ¬c = sep := fun hcs => h (hcs ▸ List.mem_cons_self c cs)
      have hcs : sep ∉ cs := fun hin => h (List.mem_cons_of_mem c hin)
      calc splitChars sep (c :: cs) acc
          = splitChars sep cs (c :: acc) := by
            simp only [splitChars, if_neg hc]
        _ = [(c :: acc).reverse ++ cs] := ih hcs _
        _ = [acc.reverse ++ c :: cs] := by simp

theorem splitNl_singleA3m (s : String) (hs : '\n' ∉ s.data) :
    splitNl (">1\n" ++ s ++ "\n") = [">1", s, ""] := by
  have hdata : (">1\n" ++ s ++ "\n").data =
      ['>', '1'] ++ '\n' :: (s.data ++ '\n' :: []) := by
    simp [String.data_append]
  unfold splitNl
  rw [hdata, splitChars_no_sep _ _ _ (by decide),
    splitChars_no_sep _ _ _ hs, splitChars_no_sep_end _ _ (by decide)]
  rfl

theorem a3mKey_singleA3m (s : String) (hs : '\n' ∉ s.data) :
    a3mKey (">1\n" ++ s ++ "\n") = s := by
  rw [a3mKey, splitNl_singleA3m s hs]
  rfl

theorem dedupFold_nodup (l : List String) :
    ∀ acc : List String, acc.Nodup →
      (l.foldl (fun a s => if s ∈ a then a else a ++ [s]) acc).Nodup := by
  induction l with
  | nil => exact fun acc h => h
  | cons x xs ih =>
      intro acc h
      rw [List.foldl_cons]
      by_cases hx : x ∈ acc
      · rw [if_pos hx]; exact ih acc h
      · rw [if_neg hx]
        exact ih _ (by rw [← List.concat_eq_append]; exact h.concat hx)

theorem uniqueAcrossQueries_nodup (queries : List (String × List String)) :
    (uniqueAcrossQueries queries).Nodup := by
  unfold uniqueAcrossQueries
  suffices h : ∀ (qs : List (String × List String)) (acc : List String),
      acc.Nodup →
      (qs.foldl (fun a q =>
        q.2.foldl (fun a2 s => if s ∈ a2 then a2 else a2 ++ [s]) a) acc).Nodup by
    exact h queries [] List.nodup_nil
  intro qs
  induction qs with
  | nil => exact fun acc h => h
  | cons q rest ih =>
      intro acc h
      rw [List.foldl_cons]
      exact ih _ (dedupFold_nodup q.2 acc h)

theorem uniqueSeqs_nodup (sequences : List String) :
    (uniqueSeqs sequences).Nodup :=
  dedupFold_nodup sequences [] List.nodup_nil

theorem storeRawInputs_foldl (pairs : List (String × Option String)) :
    ∀ acc : List (String × String × Option String),
      (∀ p ∈ pairs, acc.lookup (a3mKey p.1) = none) →
      (pairs.map (fun p => a3mKey p.1)).Nodup →
      pairs.foldl (fun d p => dictInsert d (a3mKey p.1) p) acc =
        acc ++ pairs.map (fun p => (a3mKey p.1, p)) := by
  induction pairs with
  | nil => intro acc _ _; simp
  | cons p ps ih =>
      intro acc hacc hnodup
      rw [List.foldl_cons]
      have hk : acc.lookup (a3mKey p.1) = none :=
        hacc p (List.mem_cons_self p ps)
      have hstep : dictInsert acc (a3mKey p.1) p = acc ++ [(a3mKey p.1, p)] := by
        rw [dictInsert, hk]
        rfl
      rw [hstep, ih _ ?_ (List.Nodup.of_cons (by simpa using hnodup))]
      · simp
      · intro q hq
        rw [List.lookup_append, hacc q (List.mem_cons_of_mem p hq)]
        have hne : ¬(a3mKey q.1 == a3mKey p.1) = true := by
          simp only [List.map_cons, List.nodup_cons, List.mem_map] at hnodup
          simp only [beq_iff_eq]
          exact fun hEq => hnodup.1 ⟨q, hq, hEq⟩
        simp [List.lookup, hne]

theorem storeRawInputs_eq (pairs : List (String × Option String))
    (hnodup : (pairs.map (fun p => a3mKey p.1)).Nodup) :
    storeRawInputs pairs = pairs.map (fun p => (a3mKey p.1, p)) := by
  rw [storeRawInputs, storeRawInputs_foldl pairs [] (fun _ _ => rfl) hnodup]
  rfl

theorem padLine_some (blank : List String) (pos : Nat) (l r : String)
    (hfl : padLine blank pos l = some r) (hsg : startsGt r = false) :
    l.length ≠ 0 ∧ startsGt l = false ∧ r = padRow blank pos l := by
  unfold padLine at hfl
  by_cases hlen : l.length = 0
  · rw [if_pos hlen] at hfl; cases hfl
  · rw [if_neg hlen] at hfl
    by_cases hgt : startsGt l = true
    · rw [if_pos hgt] at hfl
      cases hfl
      exact absurd hgt (by simp [hsg])
    · rw [if_neg hgt] at hfl
      cases hfl
      exact ⟨hlen, by simpa using hgt, rfl⟩

/-! ## Claim theorems -/

/-- **C6**: for a pseudo-multimer concatenation of chains of lengths
`[L1, L2, L3]` and break offset 200, the `residue_index` array returned by
`chain_break` strictly increases everywhere (in particular within each
chain's segment), jumps by at least the offset at both chain boundaries, and
carries the offset cumulatively: `+200` on the second chain and `+2*200` on
the third. -/
theorem chain_break_monotonicity (L1 L2 L3 : Nat)
    (h1 : 0 < L1) (h2 : 0 < L2) (h3 : 0 < L3) :
    (∀ i, i + 1 < L1 + L2 + L3 →
      (chain_break (idxRange (L1 + L2 + L3)) [L1, L2, L3]).getD i 0 <
        (chain_break (idxRange (L1 + L2 + L3)) [L1, L2, L3]).getD (i + 1) 0) ∧
    (chain_break (idxRange (L1 + L2 + L3)) [L1, L2, L3]).getD (L1 - 1) 0 +
        200 ≤
      (chain_break (idxRange (L1 + L2 + L3)) [L1, L2, L3]).getD L1 0 ∧
    (chain_break (idxRange (L1 + L2 + L3)) [L1, L2, L3]).getD
        (L1 + L2 - 1) 0 + 200 ≤
      (chain_break (idxRange (L1 + L2 + L3)) [L1, L2, L3]).getD (L1 + L2) 0 ∧
    (∀ i, L1 ≤ i → i < L1 + L2 →
      (chain_break (idxRange (L1 + L2 + L3)) [L1, L2, L3]).getD i 0 =
        (i : Int) + 200) ∧
    (∀ i, L1 + L2 ≤ i → i < L1 + L2 + L3 →
      (chain_break (idxRange (L1 + L2 + L3)) [L1, L2, L3]).getD i 0 =
        (i : Int) + 2 * 200) := by
  refine ⟨?_, ?_, ?_, ?_, ?_⟩
  · intro i hi
    rw [chain_break_three_getD _ _ _ _ _ (by omega),
      chain_break_three_getD _ _ _ _ _ hi]
    split_ifs <;> omega
  · rw [chain_break_three_getD _ _ _ _ _ (by omega),
      chain_break_three_getD _ _ _ _ _ (by omega)]
    split_ifs <;> omega
  · rw [chain_break_three_getD _ _ _ _ _ (by omega),
      chain_break_three_getD _ _ _ _ _ (by omega)]
    split_ifs <;> omega
  · intro i hlo hhi
    rw [chain_break_three_getD _ _ _ _ _ (by omega)]
    split_ifs <;> omega
  · intro i hlo hhi
    rw [chain_break_three_getD _ _ _ _ _ (by omega)]
    split_ifs <;> omega

/-- Witness for C6 at chain lengths `[2, 2, 3]`. -/
theorem chain_break_monotonicity_witness :
    ((0 : Nat) < 2 ∧ (0 : Nat) < 2 ∧ (0 : Nat) < 3) ∧
    ((∀ i, i + 1 < 2 + 2 + 3 →
      (chain_break (idxRange (2 + 2 + 3)) [2, 2, 3]).getD i 0 <
        (chain_break (idxRange (2 + 2 + 3)) [2, 2, 3]).getD (i + 1) 0) ∧
    (chain_break (idxRange (2 + 2 + 3)) [2, 2, 3]).getD (2 - 1) 0 + 200 ≤
      (chain_break (idxRange (2 + 2 + 3)) [2, 2, 3]).getD 2 0 ∧
    (chain_break (idxRange (2 + 2 + 3)) [2, 2, 3]).getD (2 + 2 - 1) 0 + 200 ≤
      (chain_break (idxRange (2 + 2 + 3)) [2, 2, 3]).getD (2 + 2) 0 ∧
    (∀ i, 2 ≤ i → i < 2 + 2 →
      (chain_break (idxRange (2 + 2 + 3)) [2, 2, 3]).getD i 0 =
        (i : Int) + 200) ∧
    (∀ i, 2 + 2 ≤ i → i < 2 + 2 + 3 →
      (chain_break (idxRange (2 + 2 + 3)) [2, 2, 3]).getD i 0 =
        (i : Int) + 2 * 200)) :=
  ⟨by decide,
   chain_break_monotonicity 2 2 3 (by decide) (by decide) (by decide)⟩

/-- **C10**: `chain_break` is not a pure transform: run on the numpy heap it
returns the very same array reference it was given, and after the call the
caller's alias at that reference holds the shifted index array (while every
other array in the heap is untouched). -/
theorem chain_break_mutates_in_place (h : NpHeap) (r : Nat) (Ls : List Nat)
    (len : Int) :
    (chain_break_heap h r Ls len).2 = r ∧
    (chain_break_heap h r Ls len).1 r = chain_break (h r) Ls len ∧
    (∀ s, s ≠ r → (chain_break_heap h r Ls len).1 s = h s) :=
  ⟨rfl, (chainBreakLoopH_read len r Ls.dropLast h 0).1,
   fun s hs => (chainBreakLoopH_read len r Ls.dropLast h 0).2 s hs⟩

/-- Witness for C10: a heap holding `[0..6]` at reference 3, chain lengths
`[2, 2, 3]`; reference 5 is an unrelated array. -/
theorem chain_break_mutates_in_place_witness :
    (chain_break_heap (fun _ => idxRange 7) 3 [2, 2, 3] 200).2 = 3 ∧
    (chain_break_heap (fun _ => idxRange 7) 3 [2, 2, 3] 200).1 3 =
      chain_break (idxRange 7) [2, 2, 3] 200 ∧
    ((5 : Nat) ≠ 3 ∧
     (chain_break_heap (fun _ => idxRange 7) 3 [2, 2, 3] 200).1 5 =
       idxRange 7) :=
  ⟨(chain_break_mutates_in_place (fun _ => idxRange 7) 3 [2, 2, 3] 200).1,
   (chain_break_mutates_in_place (fun _ => idxRange 7) 3 [2, 2, 3] 200).2.1,
   by decide,
   (chain_break_mutates_in_place (fun _ => idxRange 7) 3 [2, 2, 3] 200).2.2 5
     (by decide)⟩

/-- **C9**: a submission or status response with status `ERROR` makes the
MMseqs2 client abort at once with the descriptive exception message telling
the user to verify their input: a submission response with status `ERROR`
(first clause) aborts without consuming any further submission or status
response, and a status response with status `ERROR` reached while polling a
pending job (second clause) does the same — `ERROR` is never treated as a
transient state.  Both conclusions hold for arbitrary remaining response
streams, which is exactly the no-retry property. -/
theorem mmseqs_error_aborts (r : MMResponse) (hr : r.status = "ERROR") :
    (∀ subs stats, mmseqsRun (r :: subs) stats = .fatal mmseqsErrorMsg) ∧
    (∀ q subs stats, q.status = "PENDING" ∨ q.status = "RUNNING" →
      mmseqsRun (q :: subs) (r :: stats) = .fatal mmseqsErrorMsg) := by
  have hpoll : ∀ stats, pollLoop r stats = some (r, stats) := by
    intro stats
    rw [pollLoop.eq_def]
    simp [hr]
  constructor
  · intro subs stats
    rw [mmseqsRun]
    simp [hr, hpoll]
  · intro q subs stats hq
    rw [mmseqsRun]
    rcases hq with hq | hq <;>
      · rw [if_neg (by simp [hq]), pollLoop.eq_def]
        simp [hq, hpoll, hr]

/-- Witness for C9: a direct `ERROR` submission response, and an `ERROR`
status response after a `PENDING` submission. -/
theorem mmseqs_error_aborts_witness :
    (MMResponse.mk "ERROR" 7).status = "ERROR" ∧
    mmseqsRun [⟨"ERROR", 7⟩] [] = .fatal mmseqsErrorMsg ∧
    mmseqsRun [⟨"PENDING", 3⟩] [⟨"ERROR", 3⟩, ⟨"COMPLETE", 3⟩] =
      .fatal mmseqsErrorMsg :=
  ⟨rfl,
   (mmseqs_error_aborts ⟨"ERROR", 7⟩ rfl).1 [] [],
   (mmseqs_error_aborts ⟨"ERROR", 3⟩ rfl).2 ⟨"PENDING", 3⟩ []
     [⟨"COMPLETE", 3⟩] (Or.inl rfl)⟩

theorem runMMseqs2_a3m_getD (sequences fileLines : List String) (i : Nat)
    (hi : i < sequences.length) :
    (runMMseqs2_a3m sequences fileLines).getD i "" =
      String.join (((gatherA3M fileLines).lookup
        (101 + (uniqueSortedSeqs sequences).indexOf
          (sequences.getD i ""))).getD []) := by
  unfold runMMseqs2_a3m mmseqsTags
  rw [List.getD_eq_getElem?_getD, List.getElem?_map, List.getElem?_map,
    List.getElem?_eq_getElem hi, List.getD_eq_getElem _ _ hi]
  rfl

/-- **C7**: `runMMseqs2` maps every occurrence of the same input sequence to
the same tag, so duplicate occurrences receive character-for-character the
same alignment blob; when the downloaded file holds a nonempty block for
that tag, the blob is also nonempty.  (The witness instantiates the spec's
example `[A, B, A]` with `A = "ACDE"`, `B = "GHIK"` at positions 0 and 2.) -/
theorem runMMseqs2_duplicates_same_blob (sequences fileLines : List String)
    (i j : Nat) (hi : i < sequences.length) (hj : j < sequences.length)
    (heq : sequences.getD i "" = sequences.getD j "")
    (hne : String.join (((gatherA3M fileLines).lookup
        (101 + (uniqueSortedSeqs sequences).indexOf
          (sequences.getD i ""))).getD []) ≠ "") :
    (runMMseqs2_a3m sequences fileLines).getD i "" =
      (runMMseqs2_a3m sequences fileLines).getD j "" ∧
    (runMMseqs2_a3m sequences fileLines).getD i "" ≠ "" := by
  constructor
  · rw [runMMseqs2_a3m_getD _ _ _ hi, runMMseqs2_a3m_getD _ _ _ hj, heq]
  · rw [runMMseqs2_a3m_getD _ _ _ hi]
    exact hne

/-- Witness for C7: sequences `["ACDE", "GHIK", "ACDE"]` against a
downloaded a3m file with NUL-separated blocks for tags 101 and 102. -/
theorem runMMseqs2_duplicates_same_blob_witness :
    (runMMseqs2_a3m ["ACDE", "GHIK", "ACDE"]
        [">101\n", "ACDE\n", "\x00>102\n", "GHIK\n"]).getD 0 "" =
      (runMMseqs2_a3m ["ACDE", "GHIK", "ACDE"]
        [">101\n", "ACDE\n", "\x00>102\n", "GHIK\n"]).getD 2 "" ∧
    (runMMseqs2_a3m ["ACDE", "GHIK", "ACDE"]
        [">101\n", "ACDE\n", "\x00>102\n", "GHIK\n"]).getD 0 "" ≠ "" :=
  runMMseqs2_duplicates_same_blob ["ACDE", "GHIK", "ACDE"]
    [">101\n", "ACDE\n", "\x00>102\n", "GHIK\n"] 0 2
    (by decide) (by decide) (by decide) (by decide)

/-- **C8**: in `single_sequence` mode `getRawInputs` is independent of the
network oracle (no MMseqs2 call is consulted) and returns exactly one cache
entry per unique sequence across all queries, in first-occurrence order,
mapping each sequence `s` to the one-row alignment `">1\n{s}\n"` and
template path `None`.  The hypothesis states that query sequences contain no
newline (amino-acid strings). -/
theorem getRawInputs_single_sequence (queries : List (String × List String))
    (network : List String → List String × List (Option String))
    (hs : ∀ s ∈ uniqueAcrossQueries queries, '\n' ∉ s.data) :
    getRawInputs queries "single_sequence" network =
      (uniqueAcrossQueries queries).map
        (fun s => (s, ">1\n" ++ s ++ "\n", (none : Option String))) ∧
    (uniqueAcrossQueries queries).Nodup := by
  refine ⟨?_, uniqueAcrossQueries_nodup queries⟩
  have hcond : ¬(("single_sequence" : String) ≠ "single_sequence" ∧
      uniqueAcrossQueries queries ≠ []) := by simp
  simp only [getRawInputs, if_neg hcond]
  rw [List.zip_map']
  have hkeys : ∀ s ∈ uniqueAcrossQueries queries,
      a3mKey ((fun s => (">1\n" ++ s ++ "\n", (none : Option String))) s).1
        = s := by
    intro s hsmem
    exact a3mKey_singleA3m s (hs s hsmem)
  rw [storeRawInputs_eq]
  · rw [List.map_map]
    exact List.map_congr_left (fun s hsmem => by
      simp only [Function.comp]
      rw [hkeys s hsmem])
  · rw [List.map_map]
    have : ((uniqueAcrossQueries queries).map
        (a3mKey ∘ fun s => (">1\n" ++ s ++ "\n", (none : Option String)).1))
        = (uniqueAcrossQueries queries).map id := by
      exact List.map_congr_left (fun s hsmem => a3mKey_singleA3m s (hs s hsmem))
    simp only [Function.comp] at this ⊢
    rw [show (fun p : String × Option String => a3mKey p.1) ∘
        (fun s => (">1\n" ++ s ++ "\n", (none : Option String)))
        = fun s => a3mKey (">1\n" ++ s ++ "\n") from rfl]
    rw [List.map_congr_left
      (fun s hsmem => a3mKey_singleA3m s (hs s hsmem))]
    simpa using uniqueAcrossQueries_nodup queries

/-- Witness for C8: the spec's end-to-end scenario, one query with sequence
`"ACDEFG"`; the parsed alignment of the stored blob is the single row
`"ACDEFG"`. -/
theorem getRawInputs_single_sequence_witness :
    (getRawInputs [("q", ["ACDEFG"])] "single_sequence" (fun _ => ([], [])) =
      [("ACDEFG", ">1\nACDEFG\n", none)] ∧
     (uniqueAcrossQueries [("q", ["ACDEFG"])]).Nodup) ∧
    parse_a3m_rows ">1\nACDEFG\n" = ["ACDEFG"] ∧
    chainFeatureBlocks ["ACDEFG"] []
        (fun s => (">1\n" ++ s ++ "\n", none)) true false "ACDEFG" =
      [.sequenceFeats "ACDEFG" 6, .msaFeats ">1\nACDEFG\n",
       .templatePlaceholder 6] :=
  ⟨⟨by
      rw [(getRawInputs_single_sequence [("q", ["ACDEFG"])]
        (fun _ => ([], [])) (by decide)).1]
      decide,
    (getRawInputs_single_sequence [("q", ["ACDEFG"])]
        (fun _ => ([], [])) (by decide)).2⟩,
   by decide, by decide⟩

/-- **C1** (code bug): for a chain whose sequence has a custom alignment,
`getChainFeatures` does NOT build MSA features from the custom alignment —
it builds no MSA feature group at all, because the
`feature_dict.update(pipeline.make_msa_features(msas=msa))` call at
features.py line 357 is indented inside the `else` branch of the custom-MSA
test (lines 351-357).  With a custom alignment for `"ACDE"`, the chain's
feature blocks are only the sequence features and the template placeholder;
without one, the computed alignment's MSA features are present. -/
theorem getChainFeatures_custom_msa_no_msa_features :
    chainFeatureBlocks ["ACDE"] [("ACDE", ">c\nACDE\n>r\nAFDE\n")]
        (fun s => (">1\n" ++ s ++ "\n", none)) false false "ACDE" =
      [.sequenceFeats "ACDE" 4, .templatePlaceholder 4] ∧
    (chainFeatureBlocks ["ACDE"] [("ACDE", ">c\nACDE\n>r\nAFDE\n")]
        (fun s => (">1\n" ++ s ++ "\n", none)) false false "ACDE").all
      (fun b => !(isMsaFeats b)) = true ∧
    chainFeatureBlocks ["ACDE"] []
        (fun s => (">1\n" ++ s ++ "\n", none)) false false "ACDE" =
      [.sequenceFeats "ACDE" 4, .msaFeats ">1\nACDE\n",
       .templatePlaceholder 4] := by decide

/-- **C2** (code bug): `getCustomMSADict` never returns the mapping the
claim describes.  Line 260 of features.py iterates `onlyfile`, an undefined
name, so the call raises `NameError` for every directory; and even with the
name resolved, the loop compares `filename.split('.')[-1]` — which is
`"a3m"`, without the dot — against `'.a3m'`, so no file ever qualifies and a
directory holding a valid custom alignment still raises the
`"No custom MSAs detected"` error. -/
theorem getCustomMSADict_never_accepts :
    getCustomMSADict [("msa1.a3m", ">query\nACDE\n")] =
      .error "NameError: name onlyfile is not defined" ∧
    fileExtension "msa1.a3m" = "a3m" ∧
    ("a3m" : String) ≠ ".a3m" ∧
    getCustomMSADictLoop [] [("msa1.a3m", ">query\nACDE\n")] =
      .error noCustomMsaMsg :=
  ⟨rfl, by decide, by decide, rfl⟩

/-- **C3** (code bug): `pair_msa` does not order chain instances as the
sequences appear in the query: it groups all copies of a unique sequence
adjacently, in first-occurrence order of the unique sequences.  For the
query `[A, B, A]` with `A = "AC"`, `B = "G"` the combined alignment's column
blocks are `A, A, B` — the `B` row is `"----G"` — whereas the spec's
ordering (modelled by `pair_msa_queryOrder`, and matching the
`total_sequence` concatenation the same branch builds at features.py lines
399-403) gives blocks `A, B, A` with `B` row `"--G--"`. -/
theorem pair_msa_groups_duplicates :
    pair_msa ["AC", "G", "AC"]
        (fun s => if s = "AC" then ">q1\nAC" else ">q2\nG") =
      ">q1\nAC---\n>q1\n--AC-\n>q2\n----G" ∧
    pair_msa_queryOrder ["AC", "G", "AC"]
        (fun s => if s = "AC" then ">q1\nAC" else ">q2\nG") =
      ">q1\nAC---\n>q2\n--G--\n>q1\n---AC" ∧
    pair_msa ["AC", "G", "AC"]
        (fun s => if s = "AC" then ">q1\nAC" else ">q2\nG") ≠
      pair_msa_queryOrder ["AC", "G", "AC"]
        (fun s => if s = "AC" then ">q1\nAC" else ">q2\nG") := by decide

/-- **C5** (code bug): in the pseudo-multimer branch the zero-hit template
placeholder is NOT shaped for the total concatenated residue count: line 419
of features.py passes `len(sequence)` where `sequence` is the stale loop
variable holding the LAST chain.  For chains `["AA", "CCC"]` the bundle's
residue count is 5 (e.g. `aatype` has leading dimension 5) but the
placeholder's per-residue dimension is 3. -/
theorem pseudo_template_placeholder_misshaped :
    (getChainFeaturesPseudoShapes ["AA", "CCC"] 1).lookup "template_aatype" =
      some [0, 3, 22] ∧
    (getChainFeaturesPseudoShapes ["AA", "CCC"] 1).lookup "aatype" =
      some [5, 21] ∧
    (String.join ["AA", "CCC"]).length = 5 ∧
    (3 : Nat) ≠ 5 := by decide

/-- **C4**: for two chain alignments with query sequences `q1`, `q2` and
cardinalities 1 and 2, whose non-header rows have their chain's query
length, the combined alignment decomposes into the chain-1 block followed by
the two chain-2 blocks; every non-header combined row has length
`len(q1) + 2*len(q2)`; and every non-header row originating from chain 1 is
all-gap (`'-'`) on the entire column range of the two chain-2 copies, so its
real residues lie only in its own block. -/
theorem pad_sequences_block_diagonal (m1 m2 q1 q2 : String)
    (h1 : ∀ l ∈ splitNl m1, l.length ≠ 0 → startsGt l = false →
      l.length = q1.length)
    (h2 : ∀ l ∈ splitNl m2, l.length ≠ 0 → startsGt l = false →
      l.length = q2.length) :
    (padSequencesLines [m1, m2] [q1, q2] [1, 2] =
      (splitNl m1).filterMap (padLine (blankSeq [q1, q2] [1, 2]) 0) ++
        ((splitNl m2).filterMap (padLine (blankSeq [q1, q2] [1, 2]) 1) ++
          (splitNl m2).filterMap (padLine (blankSeq [q1, q2] [1, 2]) 2))) ∧
    (∀ r ∈ padSequencesLines [m1, m2] [q1, q2] [1, 2],
      startsGt r = false → r.length = q1.length + 2 * q2.length) ∧
    (∀ r ∈ (splitNl m1).filterMap (padLine (blankSeq [q1, q2] [1, 2]) 0),
      startsGt r = false →
      r.data.drop q1.length = List.replicate (2 * q2.length) '-') := by
  have hdecomp : padSequencesLines [m1, m2] [q1, q2] [1, 2] =
      (splitNl m1).filterMap (padLine (blankSeq [q1, q2] [1, 2]) 0) ++
        ((splitNl m2).filterMap (padLine (blankSeq [q1, q2] [1, 2]) 1) ++
          (splitNl m2).filterMap (padLine (blankSeq [q1, q2] [1, 2]) 2)) := by
    simp [padSequencesLines, padGo, padCopies]
  have hB : blankSeq [q1, q2] [1, 2] =
      [gapStr q1.length, gapStr q2.length, gapStr q2.length] := rfl
  have hblock0 : ∀ r ∈ (splitNl m1).filterMap
      (padLine (blankSeq [q1, q2] [1, 2]) 0), startsGt r = false →
      ∃ l ∈ splitNl m1, l.length = q1.length ∧
        r.data = l.data ++
          (List.replicate q2.length '-' ++ List.replicate q2.length '-') := by
    intro r hr hsg
    rcases List.mem_filterMap.1 hr with ⟨l, hl, hfl⟩
    rcases padLine_some _ _ _ _ hfl hsg with ⟨hlen, hgt, hrp⟩
    refine ⟨l, hl, h1 l hl hlen hgt, ?_⟩
    rw [hrp, hB]
    simp [padRow, join_data, gapStr_data]
  have hblock1 : ∀ r ∈ (splitNl m2).filterMap
      (padLine (blankSeq [q1, q2] [1, 2]) 1), startsGt r = false →
      ∃ l ∈ splitNl m2, l.length = q2.length ∧
        r.data = List.replicate q1.length '-' ++
          (l.data ++ List.replicate q2.length '-') := by
    intro r hr hsg
    rcases List.mem_filterMap.1 hr with ⟨l, hl, hfl⟩
    rcases padLine_some _ _ _ _ hfl hsg with ⟨hlen, hgt, hrp⟩
    refine ⟨l, hl, h2 l hl hlen hgt, ?_⟩
    rw [hrp, hB]
    simp [padRow, join_data, gapStr_data]
  have hblock2 : ∀ r ∈ (splitNl m2).filterMap
      (padLine (blankSeq [q1, q2] [1, 2]) 2), startsGt r = false →
      ∃ l ∈ splitNl m2, l.length = q2.length ∧
        r.data = List.replicate q1.length '-' ++
          (List.replicate q2.length '-' ++ l.data) := by
    intro r hr hsg
    rcases List.mem_filterMap.1 hr with ⟨l, hl, hfl⟩
    rcases padLine_some _ _ _ _ hfl hsg with ⟨hlen, hgt, hrp⟩
    refine ⟨l, hl, h2 l hl hlen hgt, ?_⟩
    rw [hrp, hB]
    simp [padRow, join_data, gapStr_data]
  refine ⟨hdecomp, ?_, ?_⟩
  · intro r hr hsg
    have hrlen : r.length = r.data.length := rfl
    rw [hdecomp] at hr
    rcases List.mem_append.1 hr with hr0 | hr12
    · rcases hblock0 r hr0 hsg with ⟨l, _, hlq, hdata⟩
      have hld : l.data.length = q1.length := hlq
      rw [hrlen, hdata]
      simp only [List.length_append, List.length_replicate, hld]
      omega
    · rcases List.mem_append.1 hr12 with hr1 | hr2
      · rcases hblock1 r hr1 hsg with ⟨l, _, hlq, hdata⟩
        have hld : l.data.length = q2.length := hlq
        rw [hrlen, hdata]
        simp only [List.length_append, List.length_replicate, hld]
        omega
      · rcases hblock2 r hr2 hsg with ⟨l, _, hlq, hdata⟩
        have hld : l.data.length = q2.length := hlq
        rw [hrlen, hdata]
        simp only [List.length_append, List.length_replicate, hld]
        omega
  · intro r hr hsg
    rcases hblock0 r hr hsg with ⟨l, _, hlq, hdata⟩
    have hq' : q1.length = l.data.length := hlq.symm
    rw [hdata, hq', List.drop_left, two_mul, List.replicate_add]

/-- Witness for C4: `q1 = "AC"`, `q2 = "DEF"`, each chain alignment holding
a header row plus two full-length rows. -/
theorem pad_sequences_block_diagonal_witness :
    (∀ l ∈ splitNl ">a\nAC\nGT", l.length ≠ 0 → startsGt l = false →
      l.length = ("AC" : String).length) ∧
    (∀ l ∈ splitNl ">b\nDEF\nHIJ", l.length ≠ 0 → startsGt l = false →
      l.length = ("DEF" : String).length) ∧
    ((padSequencesLines [">a\nAC\nGT", ">b\nDEF\nHIJ"] ["AC", "DEF"] [1, 2] =
      (splitNl ">a\nAC\nGT").filterMap
        (padLine (blankSeq ["AC", "DEF"] [1, 2]) 0) ++
        ((splitNl ">b\nDEF\nHIJ").filterMap
          (padLine (blankSeq ["AC", "DEF"] [1, 2]) 1) ++
          (splitNl ">b\nDEF\nHIJ").filterMap
            (padLine (blankSeq ["AC", "DEF"] [1, 2]) 2))) ∧
    (∀ r ∈ padSequencesLines [">a\nAC\nGT", ">b\nDEF\nHIJ"]
        ["AC", "DEF"] [1, 2],
      startsGt r = false →
      r.length = ("AC" : String).length + 2 * ("DEF" : String).length) ∧
    (∀ r ∈ (splitNl ">a\nAC\nGT").filterMap
        (padLine (blankSeq ["AC", "DEF"] [1, 2]) 0),
      startsGt r = false →
      r.data.drop ("AC" : String).length =
        List.replicate (2 * ("DEF" : String).length) '-')) :=
  ⟨by decide, by decide,
   pad_sequences_block_diagonal ">a\nAC\nGT" ">b\nDEF\nHIJ" "AC" "DEF"
     (by decide) (by decide)⟩

end AFFeatures

namespace AFFeatures.Examples
open AFFeatures

example : uniqueSeqs ["AC", "G", "AC"] = ["AC", "G"] := by decide

example : seqsCardinality ["AC", "G", "AC"] = [2, 1] := by decide

example :
    pair_msa ["AC", "G", "AC"]
      (fun s => if s = "AC" then ">q1\nAC" else ">q2\nG") =
    ">q1\nAC---\n>q1\n--AC-\n>q2\n----G" := by decide

example :
    chain_break (idxRange 7) [2, 2, 3] 200 =
    [0, 1, 202, 203, 404, 405, 406] := by decide

example :
    (chain_break_heap (fun _ => idxRange 7) 3 [2, 2, 3] 200).1 3 =
    [0, 1, 202, 203, 404, 405, 406] := by decide

example : fileExtension "msa1.a3m" = "a3m" := by decide

example :
    getCustomMSADictLoop [] [("msa1.a3m", ">query\nACDE\n")] =
    .error noCustomMsaMsg := rfl

example :
    chainFeatureBlocks ["ACDE"] [("ACDE", ">c\nACDE\nFFFF")]
      (fun s => (">1\n" ++ s ++ "\n", none)) false false "ACDE" =
    [.sequenceFeats "ACDE" 4, .templatePlaceholder 4] := by decide

example :
    chainFeatureBlocks ["ACDE"] []
      (fun s => (">1\n" ++ s ++ "\n", none)) false false "ACDE" =
    [.sequenceFeats "ACDE" 4, .msaFeats ">1\nACDE\n",
     .templatePlaceholder 4] := by decide

example :
    (getChainFeaturesPseudoShapes ["AA", "CCC"] 1).lookup "template_aatype" =
    some [0, 3, 22] := by decide

example :
    (getChainFeaturesPseudoShapes ["AA", "CCC"] 1).lookup "aatype" =
    some [5, 21] := by decide

example : uniqueSortedSeqs ["GHIK", "ACDE", "GHIK"] = ["ACDE", "GHIK"] := by
  decide

example : mmseqsTags ["ACDE", "GHIK", "ACDE"] 101 = [101, 102, 101] := by
  decide

example :
    runMMseqs2_a3m ["ACDE", "GHIK", "ACDE"]
      [">101\n", "ACDE\n", "\x00>102\n", "GHIK\n"] =
    [">101\nACDE\n", ">102\nGHIK\n", ">101\nACDE\n"] := by decide

example :
    getRawInputs [("q", ["ACDEFG"])] "single_sequence"
      (fun _ => ([], [])) =
    [("ACDEFG", ">1\nACDEFG\n", none)] := by decide

example : parse_a3m_rows ">1\nACDEFG\n" = ["ACDEFG"] := by decide

example :
    mmseqsRun [⟨"ERROR", 7⟩] [⟨"COMPLETE", 7⟩] = .fatal mmseqsErrorMsg := by
  decide

example :
    mmseqsRun [⟨"RATELIMIT", 1⟩, ⟨"PENDING", 2⟩]
      [⟨"RUNNING", 2⟩, ⟨"COMPLETE", 2⟩] = .complete 2 := by decide

end AFFeatures.Examples
